import Mathlib

/-!
Shallow embedding of `src/run.py` (the gradle-patches batch build script).

The script is a sequential orchestrator over external subprocesses
(`git restore`, `git checkout`, `git apply`, the configured build
commands, `git clone`) and the filesystem.  We embed it as pure
functions over a `World` that plays the role of an oracle for every
external effect: the return code of each subprocess invocation, the
parsed content of each version's `patch.yml`, directory existence, and
existence of the build artifact file.  Each embedded function returns
both its outcome (a returned status code or a propagating Python
exception) and the trace of external events it performed, so that
"command X was never executed" claims are statements about the trace.
-/

/-- A version configuration, as parsed from `./patches/<version>/patch.yml`
(keys `tag`, `java`, `patches`, `cmds`, `output`). -/
structure Config where
  tag : String
  java : String
  patches : List String
  cmds : List String
  output : String
deriving DecidableEq

/-- External events performed by the script, in order:
`loadConfig v` is the `open`/`yaml.load` of `./patches/<v>/patch.yml`;
`restore` is `git restore .` in `gradle`; `checkout t` is
`git checkout t` in `gradle`; `applyPatch v p` is
`git apply ../patches/<v>/<p>` in `gradle`; `runCmd args` is
`subprocess.run(args, cwd="gradle")` for a configured build command;
`copyArtifact src dst` is `shutil.copy2(src, dst)`; `clone` is
`git clone --quiet --filter=blob:none https://github.com/gradle/gradle`. -/
inductive Ev where
  | loadConfig (version : String)
  | restore
  | checkout (tag : String)
  | applyPatch (version : String) (patch : String)
  | runCmd (args : List String)
  | copyArtifact (src : String) (dst : String)
  | clone
deriving DecidableEq

/-- Python exceptions the script can let propagate. -/
inductive PyExc where
  /-- `FileNotFoundError` from `open`, or a YAML/key error while parsing
  the configuration file. -/
  | configError
  /-- `subprocess.CalledProcessError` raised by `check=True` on the
  given invocation. -/
  | calledProcessError (step : Ev)
  /-- The exception `subprocess.run` raises when handed an empty
  argument list (a command string that splits to nothing). -/
  | emptyCommand
  /-- `NameError`: line 101 reads the loop variable `result` although
  neither loop body ever ran. -/
  | nameError
  /-- `FileNotFoundError` from `shutil.copy2` when the configured
  output artifact does not exist. -/
  | copyNotFound
deriving DecidableEq

/-- Outcome of a call: a normal `return code`, or an exception that
propagates out of the function. -/
inductive Outcome where
  | ret (code : Int)
  | exc (e : PyExc)
deriving DecidableEq

/-- The external world the script runs against.  `run` gives the return
code of each subprocess invocation; `config v` is the parsed content of
`./patches/<v>/patch.yml` (`none` = file missing or malformed);
`isDir` is `os.path.isdir`; `fileExists` decides whether the artifact
source path exists for `shutil.copy2`; `patchDirs` is the list of
subdirectory names of `./patches` (the script itself never reads it;
it is the input of the spec's batch-enumeration description). -/
structure World where
  run : Ev → Int
  config : String → Option Config
  isDir : String → Bool
  fileExists : String → Bool
  patchDirs : List String

/-- Helper for `pyArgs`: scan the characters, `acc` holding the current
word (reversed); whitespace ends a word, and empty fragments are never
emitted. -/
def pyArgsAux (acc : List Char) : List Char → List String
  | [] => if acc.isEmpty then [] else [String.mk acc.reverse]
  | c :: cs =>
    if c.isWhitespace then
      if acc.isEmpty then pyArgsAux [] cs
      else String.mk acc.reverse :: pyArgsAux [] cs
    else pyArgsAux (c :: acc) cs

/-- Python `cmd.strip().split()` (line 90 of `run.py`): split on runs of
whitespace, dropping empty fragments, so leading/trailing whitespace
(which `strip()` would remove) contributes nothing and a whitespace-only
string yields `[]`. -/
def pyArgs (cmd : String) : List String :=
  pyArgsAux [] cmd.toList

/-- Python `os.path.basename`: the part after the last `/`. -/
def basename (s : String) : String :=
  String.mk ((s.toList.reverse.takeWhile (fun c => c != '/')).reverse)

/-- The event recorded for running a configured command string. -/
def cmdEv (c : String) : Ev :=
  Ev.runCmd (pyArgs c)

/-- Result of one of the two `for` loops in `build`: either the loop
body executed `return` / raised (`early`), or the loop finished and the
variable `result` holds the last return code (`done none` = the loop
body never ran, so `result` is still unbound). -/
inductive LoopRes where
  | early (o : Outcome)
  | done (last : Option Int)
deriving DecidableEq

/-- The value of the loop variable `result` after a loop over `l` whose
iterations all succeeded (code 0), given its value `last` beforehand:
unchanged if `l` is empty, else `some 0`. -/
def lastAfter (l : List String) (last : Option Int) : Option Int :=
  match l with
  | [] => last
  | _ :: _ => some 0

/-- Lines 78-87 of `run.py`: `for patch in config["patches"]`, running
`git apply` and returning 1 at the first nonzero status.  `last` is the
incoming value of the loop variable `result` (see `LoopRes.done`). -/
def patchLoop (w : World) (version : String) : List String → Option Int → LoopRes × List Ev
  | [], last => (.done last, [])
  | p :: ps, _ =>
    let rc := w.run (.applyPatch version p)
    if rc ≠ 0 then (.early (.ret 1), [.applyPatch version p])
    else
      let r := patchLoop w version ps (some rc)
      (r.1, .applyPatch version p :: r.2)

/-- Lines 89-99 of `run.py`: `for cmd in config["cmds"]`, splitting the
command string, running it, and returning 1 at the first nonzero
status.  An empty argument list makes `subprocess.run` raise before any
process starts. -/
def cmdLoop (w : World) : List String → Option Int → LoopRes × List Ev
  | [], last => (.done last, [])
  | c :: cs, _ =>
    let args := pyArgs c
    if args.isEmpty then (.early (.exc .emptyCommand), [])
    else
      let rc := w.run (.runCmd args)
      if rc ≠ 0 then (.early (.ret 1), [.runCmd args])
      else
        let r := cmdLoop w cs (some rc)
        (r.1, .runCmd args :: r.2)

/-- Lines 101-128 of `run.py`: the post-loop check of
`result.returncode`.  `last = none` means `result` was never bound, so
reading it raises `NameError`.  On status 0 the script (after logging
diagnostics) copies `gradle/<output>` to `distributions/<basename>`;
`shutil.copy2` raises if the source file is missing. -/
def stageArtifact (w : World) (cfg : Config) (last : Option Int) : Outcome × List Ev :=
  match last with
  | none => (.exc .nameError, [])
  | some r =>
    if r = 0 then
      if w.fileExists ("gradle/" ++ cfg.output) then
        (.ret 0,
          [.copyArtifact ("gradle/" ++ cfg.output)
            ("distributions/" ++ basename cfg.output)])
      else (.exc .copyNotFound, [])
    else (.ret 1, [])

/-- The command loop followed by the artifact stage (everything in
`build` after the patch loop). -/
def stageCmds (w : World) (cfg : Config) (last : Option Int) : Outcome × List Ev :=
  match cmdLoop w cfg.cmds last with
  | (.early o, tr) => (o, tr)
  | (.done last2, tr) =>
    let a := stageArtifact w cfg last2
    (a.1, tr ++ a.2)

/-- `build(version)` (lines 59-128 of `run.py`): load the version's
configuration (propagating failure), `git restore .` and
`git checkout <tag>` with `check=True` (propagating
`CalledProcessError`), then the patch loop, the command loop, and the
artifact stage. -/
def build (w : World) (version : String) : Outcome × List Ev :=
  match w.config version with
  | none => (.exc .configError, [.loadConfig version])
  | some cfg =>
    if w.run .restore ≠ 0 then
      (.exc (.calledProcessError .restore), [.loadConfig version, .restore])
    else if w.run (.checkout cfg.tag) ≠ 0 then
      (.exc (.calledProcessError (.checkout cfg.tag)),
        [.loadConfig version, .restore, .checkout cfg.tag])
    else
      match patchLoop w version cfg.patches none with
      | (.early o, tr) =>
        (o, .loadConfig version :: .restore :: .checkout cfg.tag :: tr)
      | (.done last, tr) =>
        let s := stageCmds w cfg last
        (s.1, .loadConfig version :: .restore :: .checkout cfg.tag :: (tr ++ s.2))

/-- Lines 145-156 of `run.py`: clone the gradle repository if and only
if the directory `gradle` does not exist; a failed clone is only
logged.  On a successful clone the directory exists afterwards (the
external effect of `git clone`); on failure, or when the directory was
already there, the world is unchanged. -/
def provision (w : World) : World × List Ev :=
  if w.isDir "gradle" then (w, [])
  else
    let rc := w.run .clone
    if rc = 0 then
      ({ w with isDir := fun d => if d = "gradle" then true else w.isDir d }, [.clone])
    else (w, [.clone])

/-- `main()` (lines 131-158 of `run.py`): after argument parsing,
logging setup and `os.makedirs("distributions")`, provision the
repository and then `return build("v6.1.0")`. -/
def RunPy.main (w : World) : Outcome × List Ev :=
  let p := provision w
  let b := build p.1 "v6.1.0"
  (b.1, p.2 ++ b.2)

/-- The versions whose configuration file the run attempted to load,
in order: one `loadConfig` event per `build` invocation. -/
def versionsAttempted (tr : List Ev) : List String :=
  tr.filterMap (fun e => match e with | .loadConfig v => some v | _ => none)

/-- Lexicographic strict order on character lists, by code point. -/
def ltChars : List Char → List Char → Bool
  | [], [] => false
  | [], _ :: _ => true
  | _ :: _, [] => false
  | a :: as, b :: bs =>
    if a.toNat < b.toNat then true
    else if b.toNat < a.toNat then false
    else ltChars as bs

/-- Lexicographic `≤` on strings, by code point. -/
def leStr (a b : String) : Bool :=
  !(ltChars b.toList a.toList)

/-- Insert a string into an already sorted list. -/
def insertStr (x : String) : List String → List String
  | [] => [x]
  | y :: ys => if leStr x y then x :: y :: ys else y :: insertStr x ys

/-- Insertion sort on strings. -/
def sortStr : List String → List String
  | [] => []
  | x :: xs => insertStr x (sortStr xs)

/-- The spec's description of the batch runner's version discovery,
stated from the spec's words for comparison with `main`: "Discovers the
set of version identifiers by enumerating subdirectories of a known
patches directory; sorts them for deterministic, reproducible
ordering." -/
def specBatchVersions (w : World) : List String :=
  sortStr w.patchDirs

/-- The ambient process state: `os.environ`. -/
structure OsState where
  environ : String → Option String

/-- One iteration of the loop in `patch_env` (lines 50-54 of `run.py`):
`copied_env.pop(var, None)` for a `None` value, `copied_env[var] = value`
otherwise, acting on the derived mapping only. -/
def applyEntry (e : String → Option String) (entry : String × Option String) :
    String → Option String :=
  match entry.2 with
  | none => fun k => if k = entry.1 then none else e k
  | some v => fun k => if k = entry.1 then some v else e k

/-- `patch_env(patch)` (lines 46-56 of `run.py`): copy `os.environ`,
apply each patch entry to the copy, and return the copy.  The ambient
state is returned unchanged alongside the derived mapping, mirroring
that the function never assigns to `os.environ`. -/
def patch_env (s : OsState) (patch : List (String × Option String)) :
    (String → Option String) × OsState :=
  (patch.foldl applyEntry s.environ, s)

/-! ### Concrete worlds used to exercise the theorems on closed inputs -/

/-- A configuration with no patches and one build command. -/
def cfgA : Config := ⟨"v1.0", "8", [], ["cmd"], "build/dist/app.zip"⟩

/-- A world whose patches directory has two (unsorted) version
subdirectories, every subprocess succeeding. -/
def cwA : World :=
  ⟨fun _ => 0, fun _ => some cfgA, fun _ => true, fun _ => true, ["b", "a"]⟩

/-- Three patches; applying the second one fails. -/
def cfgB : Config := ⟨"v1.0", "8", ["p1", "p2", "p3"], ["cmd"], "build/dist/app.zip"⟩

/-- World for `cfgB`: only `git apply ../patches/v1/p2` returns nonzero. -/
def cwB : World :=
  ⟨fun e => match e with
    | .applyPatch _ p => if p = "p2" then 1 else 0
    | _ => 0,
   fun _ => some cfgB, fun _ => true, fun _ => true, []⟩

/-- One patch; three commands, the second of which fails. -/
def cfgC : Config := ⟨"v1.0", "8", ["p1"], ["good", "bad", "later"], "build/dist/app.zip"⟩

/-- World for `cfgC`: only the command `bad` returns nonzero. -/
def cwC : World :=
  ⟨fun e => match e with
    | .runCmd a => if a = ["bad"] then 1 else 0
    | _ => 0,
   fun _ => some cfgC, fun _ => true, fun _ => true, []⟩

/-- A world with no configuration file for any version. -/
def cwD : World :=
  ⟨fun _ => 0, fun _ => none, fun _ => true, fun _ => true, []⟩

/-- No patches, one succeeding command, but the output artifact file
does not exist. -/
def cfgE : Config := ⟨"v1.0", "8", [], ["cmd"], "build/dist/app.zip"⟩

/-- World for `cfgE`: every subprocess succeeds, no file exists. -/
def cwE : World :=
  ⟨fun _ => 0, fun _ => some cfgE, fun _ => true, fun _ => false, []⟩

/-- World whose `gradle` directory is missing and whose `git clone`
fails; the build itself would succeed. -/
def cwF : World :=
  ⟨fun e => match e with
    | .clone => 1
    | _ => 0,
   fun _ => some cfgA, fun _ => false, fun _ => true, []⟩

/-- An ambient environment with three variables set. -/
def sG : OsState :=
  ⟨fun k => if k = "X" then some "1" else if k = "Y" then some "2"
    else if k = "Z" then some "3" else none⟩

/-- An environment patch setting `X` and removing `Y`. -/
def pG : List (String × Option String) := [("X", some "9"), ("Y", none)]

/-- Empty patches, one succeeding command, artifact present. -/
def cwH : World :=
  ⟨fun _ => 0, fun _ => some cfgA, fun _ => true, fun _ => true, []⟩

/-- A configuration with no patches and no commands. -/
def cfgI : Config := ⟨"v1.0", "8", [], [], "build/dist/app.zip"⟩

/-- World for `cfgI`: every subprocess succeeds. -/
def cwI : World :=
  ⟨fun _ => 0, fun _ => some cfgI, fun _ => true, fun _ => true, []⟩

/-- One succeeding command followed by a whitespace-only command. -/
def cfgJ : Config := ⟨"v1.0", "8", [], ["ok", " "], "build/dist/app.zip"⟩

/-- World for `cfgJ`: every subprocess succeeds. -/
def cwJ : World :=
  ⟨fun _ => 0, fun _ => some cfgJ, fun _ => true, fun _ => true, []⟩

/-! ### Basic lemmas about the loops and traces -/

theorem lastAfter_nil (last : Option Int) : lastAfter [] last = last := rfl

theorem lastAfter_cons (p : String) (ps : List String) (last : Option Int) :
    lastAfter (p :: ps) last = some 0 := rfl

theorem lastAfter_some_zero (l : List String) : lastAfter l (some 0) = some 0 := by
  cases l <;> rfl

theorem patchLoop_all_ok (w : World) (v : String) (l : List String) (last : Option Int)
    (h : ∀ q ∈ l, w.run (Ev.applyPatch v q) = 0) :
    patchLoop w v l last = (.done (lastAfter l last), l.map (Ev.applyPatch v)) := by
  induction l generalizing last with
  | nil => rfl
  | cons p ps ih =>
    have hp : w.run (Ev.applyPatch v p) = 0 := h p (by simp)
    have hps : ∀ q ∈ ps, w.run (Ev.applyPatch v q) = 0 := fun q hq => h q (by simp [hq])
    simp [patchLoop, hp, ih (some 0) hps, lastAfter_cons, lastAfter_some_zero]

theorem patchLoop_fail (w : World) (v : String) (pre : List String) (p : String)
    (post : List String) (last : Option Int)
    (hpre : ∀ q ∈ pre, w.run (Ev.applyPatch v q) = 0)
    (hfail : w.run (Ev.applyPatch v p) ≠ 0) :
    patchLoop w v (pre ++ p :: post) last =
      (.early (.ret 1), pre.map (Ev.applyPatch v) ++ [Ev.applyPatch v p]) := by
  induction pre generalizing last with
  | nil => simp [patchLoop, hfail]
  | cons q qs ih =>
    have hq : w.run (Ev.applyPatch v q) = 0 := hpre q (by simp)
    have hqs : ∀ r ∈ qs, w.run (Ev.applyPatch v r) = 0 := fun r hr => hpre r (by simp [hr])
    simp [patchLoop, hq, ih (some 0) hqs]

theorem cmdLoop_all_ok (w : World) (l : List String) (last : Option Int)
    (h : ∀ c ∈ l, (pyArgs c).isEmpty = false ∧ w.run (Ev.runCmd (pyArgs c)) = 0) :
    cmdLoop w l last = (.done (lastAfter l last), l.map cmdEv) := by
  induction l generalizing last with
  | nil => rfl
  | cons c cs ih =>
    have hc := h c (by simp)
    have hcs : ∀ d ∈ cs, (pyArgs d).isEmpty = false ∧ w.run (Ev.runCmd (pyArgs d)) = 0 :=
      fun d hd => h d (by simp [hd])
    simp [cmdLoop, hc.1, hc.2, ih (some 0) hcs, cmdEv, lastAfter_cons, lastAfter_some_zero]

theorem cmdLoop_fail (w : World) (pre : List String) (c : String) (post : List String)
    (last : Option Int)
    (hpre : ∀ d ∈ pre, (pyArgs d).isEmpty = false ∧ w.run (Ev.runCmd (pyArgs d)) = 0)
    (hne : (pyArgs c).isEmpty = false)
    (hfail : w.run (Ev.runCmd (pyArgs c)) ≠ 0) :
    cmdLoop w (pre ++ c :: post) last = (.early (.ret 1), pre.map cmdEv ++ [cmdEv c]) := by
  induction pre generalizing last with
  | nil => simp [cmdLoop, hne, hfail, cmdEv]
  | cons d ds ih =>
    have hd := hpre d (by simp)
    have hds : ∀ e ∈ ds, (pyArgs e).isEmpty = false ∧ w.run (Ev.runCmd (pyArgs e)) = 0 :=
      fun e he => hpre e (by simp [he])
    simp [cmdLoop, hd.1, hd.2, ih (some 0) hds, cmdEv]

theorem cmdLoop_empty_args (w : World) (pre : List String) (c : String) (post : List String)
    (last : Option Int)
    (hpre : ∀ d ∈ pre, (pyArgs d).isEmpty = false ∧ w.run (Ev.runCmd (pyArgs d)) = 0)
    (hempty : pyArgs c = []) :
    cmdLoop w (pre ++ c :: post) last = (.early (.exc .emptyCommand), pre.map cmdEv) := by
  induction pre generalizing last with
  | nil => simp [cmdLoop, hempty]
  | cons d ds ih =>
    have hd := hpre d (by simp)
    have hds : ∀ e ∈ ds, (pyArgs e).isEmpty = false ∧ w.run (Ev.runCmd (pyArgs e)) = 0 :=
      fun e he => hpre e (by simp [he])
    simp [cmdLoop, hd.1, hd.2, ih (some 0) hds, cmdEv]

theorem patchLoop_events (w : World) (v : String) (l : List String) (last : Option Int) :
    ∀ e ∈ (patchLoop w v l last).2, ∃ q ∈ l, e = Ev.applyPatch v q := by
  induction l generalizing last with
  | nil => simp [patchLoop]
  | cons p ps ih =>
    intro e he
    by_cases hp : w.run (Ev.applyPatch v p) ≠ 0
    · simp [patchLoop, hp] at he
      exact ⟨p, by simp, he⟩
    · push_neg at hp
      simp [patchLoop, hp] at he
      rcases he with he | he
      · exact ⟨p, by simp, he⟩
      · obtain ⟨q, hq, rfl⟩ := ih (some 0) e he
        exact ⟨q, by simp [hq], rfl⟩

theorem cmdLoop_events (w : World) (l : List String) (last : Option Int) :
    ∀ e ∈ (cmdLoop w l last).2, ∃ a, e = Ev.runCmd a := by
  induction l generalizing last with
  | nil => simp [cmdLoop]
  | cons c cs ih =>
    intro e he
    by_cases h1 : (pyArgs c).isEmpty
    · simp [cmdLoop, h1] at he
    · by_cases h2 : w.run (Ev.runCmd (pyArgs c)) ≠ 0
      · simp [cmdLoop, h1, h2] at he
        exact ⟨pyArgs c, he⟩
      · push_neg at h2
        simp [cmdLoop, h1, h2] at he
        rcases he with he | he
        · exact ⟨pyArgs c, he⟩
        · exact ih (some 0) e he

theorem stageArtifact_events (w : World) (cfg : Config) (last : Option Int) :
    ∀ e ∈ (stageArtifact w cfg last).2, ∃ a b, e = Ev.copyArtifact a b := by
  intro e he
  match last with
  | none => simp [stageArtifact] at he
  | some r =>
    by_cases hr : r = 0
    · by_cases hf : w.fileExists ("gradle/" ++ cfg.output)
      · simp [stageArtifact, hr, hf] at he
        exact ⟨_, _, he⟩
      · simp [stageArtifact, hr, hf] at he
    · simp [stageArtifact, hr] at he

theorem stageCmds_events (w : World) (cfg : Config) (last : Option Int) :
    ∀ e ∈ (stageCmds w cfg last).2,
      (∃ a, e = Ev.runCmd a) ∨ ∃ a b, e = Ev.copyArtifact a b := by
  intro e he
  unfold stageCmds at he
  rcases hcl : cmdLoop w cfg.cmds last with ⟨r, tr⟩
  rw [hcl] at he
  match r with
  | .early o =>
    simp at he
    refine Or.inl ?_
    have := cmdLoop_events w cfg.cmds last e (by rw [hcl]; exact he)
    simpa using this
  | .done last2 =>
    simp at he
    rcases he with he | he
    · refine Or.inl ?_
      have := cmdLoop_events w cfg.cmds last e (by rw [hcl]; exact he)
      simpa using this
    · exact Or.inr (stageArtifact_events w cfg last2 e he)

theorem versionsAttempted_append (a b : List Ev) :
    versionsAttempted (a ++ b) = versionsAttempted a ++ versionsAttempted b := by
  simp [versionsAttempted]

theorem versionsAttempted_nil_of (tr : List Ev)
    (h : ∀ e ∈ tr, ∀ u, e ≠ Ev.loadConfig u) : versionsAttempted tr = [] := by
  induction tr with
  | nil => rfl
  | cons e es ih =>
    have he := h e (by simp)
    have hes : ∀ e' ∈ es, ∀ u, e' ≠ Ev.loadConfig u := fun e' h' => h e' (by simp [h'])
    cases e with
    | loadConfig u => exact absurd rfl (he u)
    | restore => simp [versionsAttempted] at ih ⊢; exact ih hes
    | checkout t => simp [versionsAttempted] at ih ⊢; exact ih hes
    | applyPatch a b => simp [versionsAttempted] at ih ⊢; exact ih hes
    | runCmd a => simp [versionsAttempted] at ih ⊢; exact ih hes
    | copyArtifact a b => simp [versionsAttempted] at ih ⊢; exact ih hes
    | clone => simp [versionsAttempted] at ih ⊢; exact ih hes

/-! ### Shape equations for `build` -/

theorem build_eq_config_none (w : World) (v : String) (hc : w.config v = none) :
    build w v = (.exc .configError, [.loadConfig v]) := by
  simp [build, hc]

theorem build_eq_restore_fail (w : World) (v : String) (cfg : Config)
    (hc : w.config v = some cfg) (hr : w.run Ev.restore ≠ 0) :
    build w v = (.exc (.calledProcessError .restore), [.loadConfig v, .restore]) := by
  simp [build, hc, hr]

theorem build_eq_checkout_fail (w : World) (v : String) (cfg : Config)
    (hc : w.config v = some cfg) (hr : w.run Ev.restore = 0)
    (hk : w.run (Ev.checkout cfg.tag) ≠ 0) :
    build w v = (.exc (.calledProcessError (.checkout cfg.tag)),
      [.loadConfig v, .restore, .checkout cfg.tag]) := by
  simp [build, hc, hr, hk]

theorem build_eq_loops (w : World) (v : String) (cfg : Config)
    (hc : w.config v = some cfg) (hr : w.run Ev.restore = 0)
    (hk : w.run (Ev.checkout cfg.tag) = 0) :
    build w v =
      (match patchLoop w v cfg.patches none with
      | (.early o, tr) => (o, .loadConfig v :: .restore :: .checkout cfg.tag :: tr)
      | (.done last, tr) =>
        ((stageCmds w cfg last).1,
          .loadConfig v :: .restore :: .checkout cfg.tag :: (tr ++ (stageCmds w cfg last).2))) := by
  simp [build, hc, hr, hk]

theorem build_events (w : World) (v : String) :
    ∀ e ∈ (build w v).2,
      e = Ev.loadConfig v ∨ e = Ev.restore ∨ (∃ t, e = Ev.checkout t) ∨
      (∃ q, e = Ev.applyPatch v q) ∨ (∃ a, e = Ev.runCmd a) ∨
      ∃ a b, e = Ev.copyArtifact a b := by
  intro e he
  rcases hc : w.config v with _ | cfg
  · rw [build_eq_config_none w v hc] at he
    simp at he
    exact Or.inl he
  · by_cases hr : w.run Ev.restore = 0
    · by_cases hk : w.run (Ev.checkout cfg.tag) = 0
      · rcases hpl : patchLoop w v cfg.patches none with ⟨r, tr⟩
        rw [build_eq_loops w v cfg hc hr hk, hpl] at he
        have htr : ∀ x ∈ tr, ∃ q, x = Ev.applyPatch v q := by
          intro x hx
          obtain ⟨q, _, rfl⟩ := patchLoop_events w v cfg.patches none x (by rw [hpl]; exact hx)
          exact ⟨q, rfl⟩
        match r with
        | .early o =>
          simp at he
          rcases he with he | he | he | he
          · exact Or.inl he
          · exact Or.inr (Or.inl he)
          · exact Or.inr (Or.inr (Or.inl ⟨_, he⟩))
          · exact Or.inr (Or.inr (Or.inr (Or.inl (htr e he))))
        | .done last =>
          simp at he
          rcases he with he | he | he | he | he
          · exact Or.inl he
          · exact Or.inr (Or.inl he)
          · exact Or.inr (Or.inr (Or.inl ⟨_, he⟩))
          · exact Or.inr (Or.inr (Or.inr (Or.inl (htr e he))))
          · rcases stageCmds_events w cfg last e he with h | h
            · exact Or.inr (Or.inr (Or.inr (Or.inr (Or.inl h))))
            · exact Or.inr (Or.inr (Or.inr (Or.inr (Or.inr h))))
      · rw [build_eq_checkout_fail w v cfg hc hr hk] at he
        simp at he
        rcases he with he | he | he
        · exact Or.inl he
        · exact Or.inr (Or.inl he)
        · exact Or.inr (Or.inr (Or.inl ⟨_, he⟩))
    · rw [build_eq_restore_fail w v cfg hc hr] at he
      simp at he
      rcases he with he | he
      · exact Or.inl he
      · exact Or.inr (Or.inl he)

theorem build_no_clone (w : World) (v : String) : Ev.clone ∉ (build w v).2 := by
  intro hmem
  rcases build_events w v Ev.clone hmem with h | h | ⟨t, h⟩ | ⟨q, h⟩ | ⟨a, h⟩ | ⟨a, b, h⟩ <;>
    simp at h

theorem versionsAttempted_build (w : World) (v : String) :
    versionsAttempted (build w v).2 = [v] := by
  rcases hc : w.config v with _ | cfg
  · rw [build_eq_config_none w v hc]
    simp [versionsAttempted]
  · by_cases hr : w.run Ev.restore = 0
    · by_cases hk : w.run (Ev.checkout cfg.tag) = 0
      · rcases hpl : patchLoop w v cfg.patches none with ⟨r, tr⟩
        rw [build_eq_loops w v cfg hc hr hk, hpl]
        have htr : versionsAttempted tr = [] := by
          refine versionsAttempted_nil_of tr (fun e he u hequ => ?_)
          obtain ⟨q, _, rfl⟩ := patchLoop_events w v cfg.patches none e (by rw [hpl]; exact he)
          simp at hequ
        have hst : ∀ last, versionsAttempted (stageCmds w cfg last).2 = [] := by
          intro last
          refine versionsAttempted_nil_of _ (fun e he u hequ => ?_)
          rcases stageCmds_events w cfg last e he with ⟨a, rfl⟩ | ⟨a, b, rfl⟩ <;> simp at hequ
        match r with
        | .early o =>
          show versionsAttempted (Ev.loadConfig v :: Ev.restore :: Ev.checkout cfg.tag :: tr) = [v]
          simp [versionsAttempted] at htr ⊢
          exact htr
        | .done last =>
          show versionsAttempted
            (Ev.loadConfig v :: Ev.restore :: Ev.checkout cfg.tag ::
              (tr ++ (stageCmds w cfg last).2)) = [v]
          have := hst last
          simp [versionsAttempted] at htr this ⊢
          exact ⟨htr, this⟩
      · rw [build_eq_checkout_fail w v cfg hc hr hk]
        simp [versionsAttempted]
    · rw [build_eq_restore_fail w v cfg hc hr]
      simp [versionsAttempted]

/-! ### Lemmas about `provision` and `RunPy.main` -/

theorem provision_of_isDir (w : World) (h : w.isDir "gradle" = true) :
    provision w = (w, []) := by
  simp [provision, h]

theorem provision_trace_of_missing (w : World) (h : w.isDir "gradle" = false) :
    (provision w).2 = [Ev.clone] := by
  by_cases hrc : w.run Ev.clone = 0 <;> simp [provision, h, hrc]

theorem provision_clone_ok (w : World) (h : w.isDir "gradle" = false)
    (hrc : w.run Ev.clone = 0) : ((provision w).1).isDir "gradle" = true := by
  simp [provision, h, hrc]

theorem provision_clone_fail (w : World) (h : w.isDir "gradle" = false)
    (hrc : w.run Ev.clone ≠ 0) : provision w = (w, [Ev.clone]) := by
  simp [provision, h, hrc]

theorem main_outcome (w : World) :
    (RunPy.main w).1 = (build (provision w).1 "v6.1.0").1 := rfl

theorem versionsAttempted_provision (w : World) :
    versionsAttempted (provision w).2 = [] := by
  by_cases hd : w.isDir "gradle"
  · simp [provision, hd, versionsAttempted]
  · by_cases hrc : w.run Ev.clone = 0 <;> simp [provision, hd, hrc, versionsAttempted]

theorem versionsAttempted_main (w : World) :
    versionsAttempted (RunPy.main w).2 = ["v6.1.0"] := by
  show versionsAttempted ((provision w).2 ++ (build (provision w).1 "v6.1.0").2) = _
  rw [versionsAttempted_append, versionsAttempted_provision, versionsAttempted_build]
  rfl

theorem build_eq_early (w : World) (v : String) (cfg : Config)
    (hc : w.config v = some cfg) (hr : w.run Ev.restore = 0)
    (hk : w.run (Ev.checkout cfg.tag) = 0) (o : Outcome) (tr : List Ev)
    (hpl : patchLoop w v cfg.patches none = (.early o, tr)) :
    build w v = (o, .loadConfig v :: .restore :: .checkout cfg.tag :: tr) := by
  rw [build_eq_loops w v cfg hc hr hk, hpl]

theorem build_eq_done (w : World) (v : String) (cfg : Config)
    (hc : w.config v = some cfg) (hr : w.run Ev.restore = 0)
    (hk : w.run (Ev.checkout cfg.tag) = 0) (last : Option Int) (tr : List Ev)
    (hpl : patchLoop w v cfg.patches none = (.done last, tr)) :
    build w v = ((stageCmds w cfg last).1,
      .loadConfig v :: .restore :: .checkout cfg.tag :: (tr ++ (stageCmds w cfg last).2)) := by
  rw [build_eq_loops w v cfg hc hr hk, hpl]

theorem stageCmds_all_ok (w : World) (cfg : Config) (last : Option Int)
    (h : ∀ c ∈ cfg.cmds, (pyArgs c).isEmpty = false ∧ w.run (Ev.runCmd (pyArgs c)) = 0) :
    stageCmds w cfg last =
      ((stageArtifact w cfg (lastAfter cfg.cmds last)).1,
        cfg.cmds.map cmdEv ++ (stageArtifact w cfg (lastAfter cfg.cmds last)).2) := by
  unfold stageCmds
  rw [cmdLoop_all_ok w cfg.cmds last h]

theorem stageCmds_fail (w : World) (cfg : Config) (last : Option Int)
    (pre : List String) (c : String) (post : List String)
    (hcs : cfg.cmds = pre ++ c :: post)
    (hpre : ∀ d ∈ pre, (pyArgs d).isEmpty = false ∧ w.run (Ev.runCmd (pyArgs d)) = 0)
    (hne : (pyArgs c).isEmpty = false)
    (hfail : w.run (Ev.runCmd (pyArgs c)) ≠ 0) :
    stageCmds w cfg last = (.ret 1, pre.map cmdEv ++ [cmdEv c]) := by
  unfold stageCmds
  rw [hcs, cmdLoop_fail w pre c post last hpre hne hfail]

theorem stageCmds_empty_args (w : World) (cfg : Config) (last : Option Int)
    (pre : List String) (c : String) (post : List String)
    (hcs : cfg.cmds = pre ++ c :: post)
    (hpre : ∀ d ∈ pre, (pyArgs d).isEmpty = false ∧ w.run (Ev.runCmd (pyArgs d)) = 0)
    (hempty : pyArgs c = []) :
    stageCmds w cfg last = (.exc .emptyCommand, pre.map cmdEv) := by
  unfold stageCmds
  rw [hcs, cmdLoop_empty_args w pre c post last hpre hempty]

/-! ### Claim theorems -/

/-- C2: for every version configuration, if any patch in the ordered
patches list fails to apply (every earlier one succeeding), `build`
returns failure (1) immediately: its trace is exactly restore, checkout
and the `git apply` calls up to and including the failing one, so no
later patch is applied; and no build command is ever executed. -/
theorem build_patch_failure_fail_fast (w : World) (v : String) (cfg : Config)
    (pre : List String) (p : String) (post : List String)
    (hc : w.config v = some cfg)
    (hr : w.run Ev.restore = 0)
    (hk : w.run (Ev.checkout cfg.tag) = 0)
    (hps : cfg.patches = pre ++ p :: post)
    (hpre : ∀ q ∈ pre, w.run (Ev.applyPatch v q) = 0)
    (hfail : w.run (Ev.applyPatch v p) ≠ 0) :
    build w v = (Outcome.ret 1,
      Ev.loadConfig v :: Ev.restore :: Ev.checkout cfg.tag ::
        (pre.map (Ev.applyPatch v) ++ [Ev.applyPatch v p])) ∧
    ∀ args, Ev.runCmd args ∉ (build w v).2 := by
  have hb := build_eq_early w v cfg hc hr hk (Outcome.ret 1)
    (pre.map (Ev.applyPatch v) ++ [Ev.applyPatch v p])
    (by rw [hps]; exact patchLoop_fail w v pre p post none hpre hfail)
  refine ⟨hb, fun args => ?_⟩
  rw [hb]
  simp

/-- C2 witness: in `cwB` (patch `p2` fails, `p1` succeeds), building
version `v1` returns 1 after exactly restore, checkout, apply `p1`,
apply `p2`, and runs no build command. -/
theorem build_patch_failure_fail_fast_witness :
    build cwB "v1" = (Outcome.ret 1,
      Ev.loadConfig "v1" :: Ev.restore :: Ev.checkout cfgB.tag ::
        (["p1"].map (Ev.applyPatch "v1") ++ [Ev.applyPatch "v1" "p2"])) ∧
    ∀ args, Ev.runCmd args ∉ (build cwB "v1").2 :=
  build_patch_failure_fail_fast cwB "v1" cfgB ["p1"] "p2" ["p3"] rfl rfl rfl rfl
    (by decide) (by decide)

/-- C3: for every version configuration, if any build command in the
ordered cmds list exits nonzero (all earlier commands succeeding and
all patches having applied), `build` returns failure (1) immediately:
its trace stops at the failing command, so no later command is
executed; and no artifact copy is ever performed. -/
theorem build_cmd_failure_fail_fast (w : World) (v : String) (cfg : Config)
    (pre : List String) (c : String) (post : List String)
    (hc : w.config v = some cfg)
    (hr : w.run Ev.restore = 0)
    (hk : w.run (Ev.checkout cfg.tag) = 0)
    (hpatches : ∀ q ∈ cfg.patches, w.run (Ev.applyPatch v q) = 0)
    (hcs : cfg.cmds = pre ++ c :: post)
    (hpre : ∀ d ∈ pre, (pyArgs d).isEmpty = false ∧ w.run (Ev.runCmd (pyArgs d)) = 0)
    (hne : (pyArgs c).isEmpty = false)
    (hfail : w.run (Ev.runCmd (pyArgs c)) ≠ 0) :
    build w v = (Outcome.ret 1,
      Ev.loadConfig v :: Ev.restore :: Ev.checkout cfg.tag ::
        (cfg.patches.map (Ev.applyPatch v) ++ (pre.map cmdEv ++ [cmdEv c]))) ∧
    ∀ a b, Ev.copyArtifact a b ∉ (build w v).2 := by
  have hb := build_eq_done w v cfg hc hr hk (lastAfter cfg.patches none)
    (cfg.patches.map (Ev.applyPatch v))
    (patchLoop_all_ok w v cfg.patches none hpatches)
  rw [stageCmds_fail w cfg (lastAfter cfg.patches none) pre c post hcs hpre hne hfail] at hb
  refine ⟨hb, fun a b => ?_⟩
  rw [hb]
  simp [cmdEv]

/-- C3 witness: in `cwC` (command `bad` fails after `good` succeeds),
building version `v1` returns 1 after restore, checkout, the patch, the
command `good` and the command `bad`; the command `later` never runs
and nothing is copied. -/
theorem build_cmd_failure_fail_fast_witness :
    build cwC "v1" = (Outcome.ret 1,
      Ev.loadConfig "v1" :: Ev.restore :: Ev.checkout cfgC.tag ::
        (cfgC.patches.map (Ev.applyPatch "v1") ++
          (["good"].map cmdEv ++ [cmdEv "bad"]))) ∧
    ∀ a b, Ev.copyArtifact a b ∉ (build cwC "v1").2 :=
  build_cmd_failure_fail_fast cwC "v1" cfgC ["good"] "bad" ["later"] rfl rfl rfl
    (by decide) rfl (by decide) (by decide) (by decide)

/-- C4: if the version's configuration file is missing or malformed, or
the `git restore` step fails, or the `git checkout` step fails, `build`
does not return a per-version status code: the outcome is a propagating
exception, and `main` (whose outcome is always the outcome of the one
`build` call it makes) propagates it, aborting the run. -/
theorem build_fatal_steps_propagate (w : World) (v : String)
    (h : w.config v = none
      ∨ (∃ cfg, w.config v = some cfg ∧ w.run Ev.restore ≠ 0)
      ∨ (∃ cfg, w.config v = some cfg ∧ w.run Ev.restore = 0 ∧
          w.run (Ev.checkout cfg.tag) ≠ 0)) :
    (∃ e, (build w v).1 = Outcome.exc e) ∧
    (∀ code, (build w v).1 ≠ Outcome.ret code) ∧
    (RunPy.main w).1 = (build (provision w).1 "v6.1.0").1 := by
  have hexc : ∃ e, (build w v).1 = Outcome.exc e := by
    rcases h with hc | ⟨cfg, hc, hr⟩ | ⟨cfg, hc, hr, hk⟩
    · exact ⟨.configError, by rw [build_eq_config_none w v hc]⟩
    · exact ⟨.calledProcessError .restore, by rw [build_eq_restore_fail w v cfg hc hr]⟩
    · exact ⟨.calledProcessError (.checkout cfg.tag),
        by rw [build_eq_checkout_fail w v cfg hc hr hk]⟩
  refine ⟨hexc, fun code hcode => ?_, main_outcome w⟩
  obtain ⟨e, he⟩ := hexc
  rw [hcode] at he
  exact Outcome.noConfusion he

/-- C4 witness: in `cwD` no configuration file exists, so building any
version ends in a propagating exception, not a status code. -/
theorem build_fatal_steps_propagate_witness :
    (∃ e, (build cwD "v1").1 = Outcome.exc e) ∧
    (∀ code, (build cwD "v1").1 ≠ Outcome.ret code) ∧
    (RunPy.main cwD).1 = (build (provision cwD).1 "v6.1.0").1 :=
  build_fatal_steps_propagate cwD "v1" (Or.inl rfl)

/-- C5 counterexample: in `cwE` every patch and command succeeds but the
configured artifact `gradle/build/dist/app.zip` does not exist; `build`
does not return failure status 1 as the claim states — it ends in the
propagating `FileNotFoundError` of `shutil.copy2`. -/
theorem missing_artifact_cex :
    (build cwE "v1").1 = Outcome.exc PyExc.copyNotFound ∧
    (build cwE "v1").1 ≠ Outcome.ret 1 := by
  decide

/-- C5 (amended): for every version configuration whose patches and
build commands all succeed but whose configured output artifact file
does not exist, `build` (after logging diagnostics) raises a
propagating `FileNotFoundError` from `shutil.copy2` instead of
returning a status code; no artifact is copied. -/
theorem missing_artifact_raises (w : World) (v : String) (cfg : Config)
    (hc : w.config v = some cfg)
    (hr : w.run Ev.restore = 0)
    (hk : w.run (Ev.checkout cfg.tag) = 0)
    (hpatches : ∀ q ∈ cfg.patches, w.run (Ev.applyPatch v q) = 0)
    (hcmds : ∀ d ∈ cfg.cmds, (pyArgs d).isEmpty = false ∧ w.run (Ev.runCmd (pyArgs d)) = 0)
    (hne : cfg.patches ≠ [] ∨ cfg.cmds ≠ [])
    (hmiss : w.fileExists ("gradle/" ++ cfg.output) = false) :
    (build w v).1 = Outcome.exc PyExc.copyNotFound ∧
    ∀ a b, Ev.copyArtifact a b ∉ (build w v).2 := by
  have hb := build_eq_done w v cfg hc hr hk (lastAfter cfg.patches none)
    (cfg.patches.map (Ev.applyPatch v)) (patchLoop_all_ok w v cfg.patches none hpatches)
  rw [stageCmds_all_ok w cfg (lastAfter cfg.patches none) hcmds] at hb
  have hlast : lastAfter cfg.cmds (lastAfter cfg.patches none) = some 0 := by
    rcases hcs : cfg.cmds with _ | ⟨c, cs⟩
    · rcases hps : cfg.patches with _ | ⟨p, ps⟩
      · rcases hne with hne | hne
        · exact absurd hps hne
        · exact absurd hcs hne
      · simp [lastAfter]
    · simp [lastAfter]
  rw [hlast] at hb
  have hart : stageArtifact w cfg (some 0) = (.exc .copyNotFound, []) := by
    simp [stageArtifact, hmiss]
  rw [hart] at hb
  refine ⟨by rw [hb], fun a b => ?_⟩
  rw [hb]
  simp [cmdEv]

/-- C5 witness: `missing_artifact_raises` applied to `cwE`. -/
theorem missing_artifact_raises_witness :
    (build cwE "v1").1 = Outcome.exc PyExc.copyNotFound ∧
    ∀ a b, Ev.copyArtifact a b ∉ (build cwE "v1").2 :=
  missing_artifact_raises cwE "v1" cfgE rfl rfl rfl (by decide) (by decide)
    (Or.inr (by decide)) rfl

/-- C6: repository provisioning is idempotent and clone failure is not
fatal: when `gradle` already exists no clone happens (and the whole run
performs none); when it is missing exactly one clone is attempted; if
that clone succeeds a second provisioning is a no-op; and if the clone
fails, `main` still continues into `build` and returns its outcome. -/
theorem provision_idempotent_clone_nonfatal (w : World) :
    (w.isDir "gradle" = true →
      provision w = (w, []) ∧ Ev.clone ∉ (RunPy.main w).2) ∧
    (w.isDir "gradle" = false →
      (provision w).2 = [Ev.clone] ∧
      (w.run Ev.clone = 0 → provision (provision w).1 = ((provision w).1, [])) ∧
      (w.run Ev.clone ≠ 0 →
        RunPy.main w = ((build w "v6.1.0").1, Ev.clone :: (build w "v6.1.0").2))) := by
  constructor
  · intro h
    refine ⟨provision_of_isDir w h, ?_⟩
    show Ev.clone ∉ (provision w).2 ++ (build (provision w).1 "v6.1.0").2
    rw [provision_of_isDir w h]
    simpa using build_no_clone w "v6.1.0"
  · intro h
    refine ⟨provision_trace_of_missing w h, fun hrc => ?_, fun hrc => ?_⟩
    · exact provision_of_isDir _ (provision_clone_ok w h hrc)
    · show ((build (provision w).1 "v6.1.0").1,
        (provision w).2 ++ (build (provision w).1 "v6.1.0").2) = _
      rw [provision_clone_fail w h hrc]
      rfl

/-- C6 witness: in `cwF` the `gradle` directory is missing and the clone
fails; provisioning performs exactly one clone and `main` still goes on
to build. -/
theorem provision_idempotent_clone_nonfatal_witness :
    (provision cwF).2 = [Ev.clone] ∧
    RunPy.main cwF = ((build cwF "v6.1.0").1, Ev.clone :: (build cwF "v6.1.0").2) :=
  ⟨((provision_idempotent_clone_nonfatal cwF).2 rfl).1,
   ((provision_idempotent_clone_nonfatal cwF).2 rfl).2.2 (by decide)⟩

theorem foldl_applyEntry_frame (patch : List (String × Option String))
    (e : String → Option String) (k : String) (hk : k ∉ patch.map Prod.fst) :
    patch.foldl applyEntry e k = e k := by
  induction patch generalizing e with
  | nil => rfl
  | cons entry rest ih =>
    simp only [List.map_cons, List.mem_cons, not_or] at hk
    obtain ⟨h1, h2⟩ := hk
    rw [List.foldl_cons, ih (applyEntry e entry) h2]
    rcases entry with ⟨key, val⟩
    cases val <;> simp_all [applyEntry]

theorem foldl_applyEntry_mem (patch : List (String × Option String))
    (k : String) (val : Option String) (hmem : (k, val) ∈ patch)
    (hnd : (patch.map Prod.fst).Nodup) (e : String → Option String) :
    patch.foldl applyEntry e k = val := by
  induction patch generalizing e with
  | nil => cases hmem
  | cons entry rest ih =>
    rw [List.foldl_cons]
    rcases List.mem_cons.mp hmem with heq | hmem2
    · have hk : k ∉ rest.map Prod.fst := by
        rw [List.map_cons, List.nodup_cons] at hnd
        rw [← heq] at hnd
        exact hnd.1
      rw [foldl_applyEntry_frame rest (applyEntry e entry) k hk, ← heq]
      cases val <;> simp [applyEntry]
    · have hnd2 : (rest.map Prod.fst).Nodup := by
        rw [List.map_cons, List.nodup_cons] at hnd
        exact hnd.2
      exact ih hmem2 hnd2 (applyEntry e entry)

/-- C7: `patch_env` returns a fresh derived mapping in which every
variable the patch maps to a string is set to that string, every
variable the patch maps to the removal sentinel (`None`) is absent, and
every other variable keeps its ambient value, while the ambient process
environment (`os.environ`) is left completely unchanged. -/
theorem patch_env_fresh_derived (s : OsState) (patch : List (String × Option String))
    (hnd : (patch.map Prod.fst).Nodup) :
    (patch_env s patch).2 = s ∧
    (∀ k v, (k, some v) ∈ patch → (patch_env s patch).1 k = some v) ∧
    (∀ k, (k, none) ∈ patch → (patch_env s patch).1 k = none) ∧
    (∀ k, k ∉ patch.map Prod.fst → (patch_env s patch).1 k = s.environ k) :=
  ⟨rfl,
   fun k v hm => foldl_applyEntry_mem patch k (some v) hm hnd s.environ,
   fun k hm => foldl_applyEntry_mem patch k none hm hnd s.environ,
   fun k hk => foldl_applyEntry_frame patch s.environ k hk⟩

/-- C7 witness: in ambient environment `sG` (X=1, Y=2, Z=3), the patch
`pG` (set X to 9, remove Y) yields a derived mapping with X=9, Y absent,
Z untouched, and the ambient state unchanged. -/
theorem patch_env_fresh_derived_witness :
    (patch_env sG pG).1 "X" = some "9" ∧ (patch_env sG pG).1 "Y" = none ∧
    (patch_env sG pG).1 "Z" = sG.environ "Z" ∧ (patch_env sG pG).2 = sG :=
  ⟨(patch_env_fresh_derived sG pG (by decide)).2.1 "X" "9" (by decide),
   (patch_env_fresh_derived sG pG (by decide)).2.2.1 "Y" (by decide),
   (patch_env_fresh_derived sG pG (by decide)).2.2.2 "Z" (by decide),
   (patch_env_fresh_derived sG pG (by decide)).1⟩

/-- C8: for every version configuration whose patches list is empty,
the patch-application step performs no work (no `git apply` event ever
appears) and never causes failure: `build` proceeds directly to the
build-command stage, whose outcome it returns. -/
theorem build_empty_patches_vacuous (w : World) (v : String) (cfg : Config)
    (hc : w.config v = some cfg) (hps : cfg.patches = [])
    (hr : w.run Ev.restore = 0) (hk : w.run (Ev.checkout cfg.tag) = 0) :
    build w v = ((stageCmds w cfg none).1,
      Ev.loadConfig v :: Ev.restore :: Ev.checkout cfg.tag :: (stageCmds w cfg none).2) ∧
    ∀ q, Ev.applyPatch v q ∉ (build w v).2 := by
  have hpl : patchLoop w v cfg.patches none = (.done none, []) := by rw [hps]; rfl
  have hb : build w v = ((stageCmds w cfg none).1,
      Ev.loadConfig v :: Ev.restore :: Ev.checkout cfg.tag :: (stageCmds w cfg none).2) :=
    build_eq_done w v cfg hc hr hk none [] hpl
  refine ⟨hb, fun q hmem => ?_⟩
  rw [hb] at hmem
  simp only [List.mem_cons] at hmem
  rcases hmem with h | h | h | hmem
  · exact Ev.noConfusion h
  · exact Ev.noConfusion h
  · exact Ev.noConfusion h
  · rcases stageCmds_events w cfg none _ hmem with ⟨a, h⟩ | ⟨a, b, h⟩ <;> exact Ev.noConfusion h

/-- C8 witness: `cwH` has no patches; building `v1` goes straight to the
command stage and applies no patch. -/
theorem build_empty_patches_vacuous_witness :
    build cwH "v1" = ((stageCmds cwH cfgA none).1,
      Ev.loadConfig "v1" :: Ev.restore :: Ev.checkout cfgA.tag ::
        (stageCmds cwH cfgA none).2) ∧
    ∀ q, Ev.applyPatch "v1" q ∉ (build cwH "v1").2 :=
  build_empty_patches_vacuous cwH "v1" cfgA rfl rfl rfl rfl

/-- C9: a configuration with an empty patches list and an empty cmds
list makes `build` end in a propagating `NameError` (line 101 reads the
never-bound loop variable `result`) rather than returning a status
code. -/
theorem build_empty_config_name_error (w : World) (v : String) (cfg : Config)
    (hc : w.config v = some cfg)
    (hr : w.run Ev.restore = 0) (hk : w.run (Ev.checkout cfg.tag) = 0)
    (hps : cfg.patches = []) (hcs : cfg.cmds = []) :
    build w v = (Outcome.exc PyExc.nameError,
      [Ev.loadConfig v, Ev.restore, Ev.checkout cfg.tag]) ∧
    ∀ code, (build w v).1 ≠ Outcome.ret code := by
  have hpl : patchLoop w v cfg.patches none = (.done none, []) := by rw [hps]; rfl
  have hsc : stageCmds w cfg none = (.exc .nameError, []) := by
    unfold stageCmds
    rw [hcs]
    rfl
  have hb := build_eq_done w v cfg hc hr hk none [] hpl
  rw [hsc] at hb
  have hb2 : build w v = (Outcome.exc PyExc.nameError,
      [Ev.loadConfig v, Ev.restore, Ev.checkout cfg.tag]) := hb
  refine ⟨hb2, fun code hcode => ?_⟩
  rw [hb2] at hcode
  exact Outcome.noConfusion hcode

/-- C9 witness: `cfgI` has neither patches nor commands; building `v1`
in `cwI` ends in the `NameError`. -/
theorem build_empty_config_name_error_witness :
    build cwI "v1" = (Outcome.exc PyExc.nameError,
      [Ev.loadConfig "v1", Ev.restore, Ev.checkout cfgI.tag]) ∧
    ∀ code, (build cwI "v1").1 ≠ Outcome.ret code :=
  build_empty_config_name_error cwI "v1" cfgI rfl rfl rfl rfl rfl

/-- C10: if a command string in the cmds list is empty or
whitespace-only (its split yields no arguments, every earlier command
having succeeded), `subprocess.run` raises and `build` crashes with a
propagating exception instead of returning the per-version failure
status: no validation of command strings ever happens. -/
theorem build_empty_command_crash (w : World) (v : String) (cfg : Config)
    (pre : List String) (c : String) (post : List String)
    (hc : w.config v = some cfg)
    (hr : w.run Ev.restore = 0) (hk : w.run (Ev.checkout cfg.tag) = 0)
    (hpatches : ∀ q ∈ cfg.patches, w.run (Ev.applyPatch v q) = 0)
    (hcs : cfg.cmds = pre ++ c :: post)
    (hpre : ∀ d ∈ pre, (pyArgs d).isEmpty = false ∧ w.run (Ev.runCmd (pyArgs d)) = 0)
    (hempty : pyArgs c = []) :
    (build w v).1 = Outcome.exc PyExc.emptyCommand ∧
    ∀ code, (build w v).1 ≠ Outcome.ret code := by
  have hb := build_eq_done w v cfg hc hr hk (lastAfter cfg.patches none)
    (cfg.patches.map (Ev.applyPatch v)) (patchLoop_all_ok w v cfg.patches none hpatches)
  rw [stageCmds_empty_args w cfg (lastAfter cfg.patches none) pre c post hcs hpre hempty] at hb
  refine ⟨by rw [hb], fun code hcode => ?_⟩
  rw [hb] at hcode
  exact Outcome.noConfusion hcode

/-- C10 witness: in `cwJ` the second configured command is the
whitespace-only string; after the first command succeeds, `build` ends
in the propagating exception, not in status 1. -/
theorem build_empty_command_crash_witness :
    (build cwJ "v1").1 = Outcome.exc PyExc.emptyCommand ∧
    ∀ code, (build cwJ "v1").1 ≠ Outcome.ret code :=
  build_empty_command_crash cwJ "v1" cfgJ ["ok"] " " [] rfl rfl rfl (by decide) rfl
    (by decide) (by decide)

/-- C1 counterexample: in `cwA` the patches directory has the
subdirectories `b` and `a`, yet the run attempts only the hardcoded
version `v6.1.0` — not the sorted enumeration `[a, b]` the claim
describes, falsifying the claim at this input. -/
theorem main_ignores_patch_dirs_cex :
    versionsAttempted (RunPy.main cwA).2 ≠ specBatchVersions cwA := by
  decide

/-- C1 (amended): `main` provisions the repository once and then
invokes `build` exactly once, for the hardcoded version `v6.1.0`
(exactly one configuration load is ever attempted), and returns that
single build's status; no enumeration of the patches directory and no
aggregation over versions occurs. -/
theorem main_single_hardcoded_version (w : World) :
    versionsAttempted (RunPy.main w).2 = ["v6.1.0"] ∧
    (RunPy.main w).1 = (build (provision w).1 "v6.1.0").1 :=
  ⟨versionsAttempted_main w, main_outcome w⟩
